import Mathlib

/-!
Verification development for the `crawler` repository (Go).

The Go sources are shallowly embedded below:
  * `Request.Request` (HEAD/GET fetcher with status validation),
  * `AbsoluteURL` (href resolution on top of a model of Go `net/url`),
  * `TrimAndSanitize` (whitespace normalisation; the bluemonday markup
    sanitizer is an external library and is abstracted as a parameter),
  * the `Scrapper` state tracker and its operations,
  * `Scrapper.Scrape` (per-URL scrape unit) and the `Collector` crawl
    orchestrator (`Crawl`, `StartCrawling`).

Machine integers (`int`, `int64`) are modelled as `Int`, HTTP status codes as
`Nat`.  Network I/O is modelled by an oracle `Web` assigning to every URL the
outcome of its HEAD request, its GET request and of parsing its body.
Goroutine interleavings are not modelled: the embedding executes the launched
scrape units sequentially in launch order, which is one admissible schedule of
the Go program, and each mutex-protected state-tracker call is one atomic step.
Wall-clock time (`CurrentTimestamp`) is modelled as the constant 0.
-/

namespace Crawler

/-! ### Basic character/list utilities (models of Go `strings` helpers) -/

/-- `preOf p l` : the list `p` is an initial run of `l` (Go `strings.HasPrefix`). -/
def preOf : List Char → List Char → Bool
  | [], _ => true
  | _ :: _, [] => false
  | a :: as, b :: bs => a = b && preOf as bs

/-- `subOf p l` : the list `p` occurs contiguously inside `l` (Go `strings.Contains`). -/
def subOf (p : List Char) : List Char → Bool
  | [] => preOf p []
  | b :: bs => preOf p (b :: bs) || subOf p bs

/-- Go `strings.HasPrefix` on strings. -/
def strStarts (s pre : String) : Bool := preOf pre.data s.data

/-- Go `strings.Contains` on strings. -/
def goContains (s sub : String) : Bool := subOf sub.data s.data

/-- ASCII lower-casing of one character (the content types and schemes the
program compares are ASCII, so this models Go `strings.ToLower` on them). -/
def lowerChar (c : Char) : Char :=
  if 'A' ≤ c ∧ c ≤ 'Z' then Char.ofNat (c.toNat + 32) else c

/-- Go `strings.ToLower` (ASCII fragment). -/
def goToLower (s : String) : String := ⟨s.data.map lowerChar⟩

/-- Go `strings.EqualFold` (ASCII fragment, as used on `meta` tag names). -/
def goEqualFold (a b : String) : Bool := goToLower a = goToLower b

/-- Split a character list at the first occurrence of `c`: returns the part
before it and, when `c` occurs, the part after it (Go `strings.Cut`). -/
def cutList (c : Char) : List Char → List Char × Option (List Char)
  | [] => ([], none)
  | d :: ds =>
    if d = c then ([], some ds)
    else (d :: (cutList c ds).1, (cutList c ds).2)

/-- `cutChar s c` : Go `strings.Cut(s, string(c))` on strings. -/
def cutChar (s : String) (c : Char) : String × Option String :=
  let r := cutList c s.data
  (⟨r.1⟩, r.2.map fun l => ⟨l⟩)

/-- Split a character list at every occurrence of `c` (Go `strings.Split`). -/
def splitChar (c : Char) : List Char → List (List Char)
  | [] => [[]]
  | d :: ds =>
    let r := splitChar c ds
    if d = c then [] :: r
    else
      match r with
      | [] => [[d]]
      | h :: t => (d :: h) :: t

/-- Split a string at every occurrence of `c`. -/
def splitOnChar (c : Char) (s : String) : List String :=
  (splitChar c s.data).map fun l => ⟨l⟩

/-- Join character lists with separator `c` (Go `strings.Join`). -/
def joinChar (c : Char) : List (List Char) → List Char
  | [] => []
  | [l] => l
  | l :: l2 :: ls => l ++ c :: joinChar c (l2 :: ls)

/-- Join strings with separator `c`. -/
def joinStr (c : Char) (ls : List String) : String :=
  ⟨joinChar c (ls.map String.data)⟩

/-- First `n` characters of a string (Go slicing `s[:n]` on ASCII data). -/
def takeStr (s : String) (n : Nat) : String := ⟨s.data.take n⟩

/-- Characters of a string from position `n` on (Go slicing `s[n:]` on ASCII data). -/
def dropStr (s : String) (n : Nat) : String := ⟨s.data.drop n⟩

/-! ### Page fetcher: `Request` (src/unnamed/part_000) -/

/-- The parts of a Go `http.Response` the crawler reads: the status code, the
`Content-Type` header and `ContentLength`. -/
structure HttpResponse where
  StatusCode : Nat := 200
  ContentType : String := ""
  ContentLength : Int := 0
deriving DecidableEq

/-- Outcome of attempting one HTTP request, before status validation:
`http.NewRequest` may fail, `Client.Do` may fail (transport error or timeout),
or a response arrives. -/
inductive Transport where
  | newRequestError (msg : String)
  | doError (msg : String)
  | response (r : HttpResponse)
deriving DecidableEq

/-- Model of `Request.Request`: wraps `NewRequest` / `Client.Do` failures into
errors and rejects any response whose status code is not 200 (the Go code
tests `response.StatusCode != 200`). -/
def RequestGo : Transport → Except String HttpResponse
  | .newRequestError m => .error ("new http request failed: " ++ m ++ "\n")
  | .doError m => .error ("http request failed: " ++ m ++ "\n")
  | .response r =>
    if r.StatusCode ≠ 200 then .error ("status code: " ++ toString r.StatusCode ++ "\n")
    else .ok r

/-! ### Text normalizer: `TrimAndSanitize` (src/unnamed/part_001)

The bluemonday `StrictPolicy` markup stripper is an external library; it is
abstracted as a parameter `Sanitize : String → String`.  `strings.TrimSpace`
trims characters satisfying `unicode.IsSpace`; the regular expression
`[\s\p{Zs}]{2,}` matches every maximal run of two or more characters of the
class `\s ∪ Zs`, and `ReplaceAllString` deletes each such run. -/

/-- Go `unicode.IsSpace` (the Unicode White_Space property), by code point. -/
def goIsSpace (c : Char) : Bool :=
  let n := c.toNat
  n = 0x20 ∨ (0x09 ≤ n ∧ n ≤ 0x0d) ∨ n = 0x85 ∨ n = 0xa0 ∨
  n = 0x1680 ∨ (0x2000 ≤ n ∧ n ≤ 0x200a) ∨ n = 0x2028 ∨ n = 0x2029 ∨
  n = 0x202f ∨ n = 0x205f ∨ n = 0x3000

/-- The character class of the collapsing regular expression: RE2 backslash-s
is tab, newline, form feed, carriage return and space, and Zs is the Unicode
space-separator category; given by code point. -/
def reWS (c : Char) : Bool :=
  let n := c.toNat
  n = 0x20 ∨ n = 0x09 ∨ n = 0x0a ∨ n = 0x0c ∨ n = 0x0d ∨
  n = 0xa0 ∨ n = 0x1680 ∨ (0x2000 ≤ n ∧ n ≤ 0x200a) ∨
  n = 0x202f ∨ n = 0x205f ∨ n = 0x3000

/-- One pass deleting every maximal run of two or more `reWS` characters and
keeping isolated ones; the flag records whether we are inside a run that is
being deleted.  This is the action of
`regexp.MustCompile([\s\p{Zs}]\x7b2,\x7d).ReplaceAllString(s, "")`. -/
def collapseAux : Bool → List Char → List Char
  | _, [] => []
  | inRun, c :: cs =>
    if reWS c then
      if inRun then collapseAux true cs
      else
        match cs with
        | [] => [c]
        | d :: _ => if reWS d then collapseAux true cs else c :: collapseAux false cs
    else c :: collapseAux false cs

/-- The whitespace-collapsing stage of `TrimAndSanitize`. -/
def collapseWS (l : List Char) : List Char := collapseAux false l

/-- Go `strings.TrimSpace` on character lists. -/
def goTrimSpace (l : List Char) : List Char :=
  ((l.dropWhile goIsSpace).reverse.dropWhile goIsSpace).reverse

/-- Model of `TrimAndSanitize`: sanitize markup (external policy `Sanitize`),
trim leading/trailing white space, then delete every run of two or more
whitespace characters. -/
def TrimAndSanitize (Sanitize : String → String) (s : String) : String :=
  ⟨collapseWS (goTrimSpace (Sanitize s).data)⟩

/-! ### Model of Go `net/url` (the fragment used by `AbsoluteURL`)

`AbsoluteURL` uses `url.ParseRequestURI`, `(*url.URL).Parse` (reference
resolution), assignment to `.Fragment`/`.Scheme` and `(*url.URL).String()`.
The model below follows the corresponding `net/url` code, with percent
escaping and userinfo validation omitted: the crawler's URLs are handled
verbatim. -/

/-- The fields of Go `url.URL` that the crawler's resolution can reach
(`User` is dropped, escaping identities are assumed). -/
structure GoURL where
  Scheme : String := ""
  Opaque : String := ""
  Host : String := ""
  Path : String := ""
  RawQuery : String := ""
  Fragment : String := ""
  OmitHost : Bool := false
deriving DecidableEq

/-- Go `net/url.getScheme`: scan for `scheme:`; a scheme is letters then
letters/digits/plus/minus/dot; on the first other character there is no
scheme.  Returns `(scheme, remainder)`. -/
def getSchemeAux (raw : String) : List Char → Nat → Except String (String × String)
  | [], _ => .ok ("", raw)
  | c :: cs, i =>
    if ('a' ≤ c ∧ c ≤ 'z') ∨ ('A' ≤ c ∧ c ≤ 'Z') then getSchemeAux raw cs (i + 1)
    else if ('0' ≤ c ∧ c ≤ '9') ∨ c = '+' ∨ c = '-' ∨ c = '.' then
      if i = 0 then .ok ("", raw) else getSchemeAux raw cs (i + 1)
    else if c = ':' then
      if i = 0 then .error "missing protocol scheme"
      else .ok (takeStr raw i, dropStr raw (i + 1))
    else .ok ("", raw)

/-- Go `net/url.getScheme`. -/
def getScheme (raw : String) : Except String (String × String) :=
  getSchemeAux raw raw.data 0

/-- `base[:strings.LastIndex(base, "/")+1]` — the directory part of a path. -/
def baseDir (b : String) : String :=
  ⟨(b.data.reverse.dropWhile (fun c => ¬ c = '/')).reverse⟩

/-- Dot-segment removal stack: `.` is dropped, `..` pops the last segment,
anything else is pushed (the loop body of Go `net/url.resolvePath`). -/
def dotStack (acc : List String) : List String → List String
  | [] => acc
  | s :: rest =>
    if s = "." then dotStack acc rest
    else if s = ".." then dotStack acc.dropLast rest
    else dotStack (acc ++ [s]) rest

/-- Go `net/url.resolvePath`: merge `ref` onto the directory of `base` and
remove dot segments; a non-empty result always carries a leading slash, and a
trailing `.` or `..` leaves a trailing slash. -/
def resolvePath (base ref : String) : String :=
  let full :=
    if ref = "" then base
    else if ¬ strStarts ref "/" then baseDir base ++ ref
    else ref
  if full = "" then ""
  else
    let segs := splitOnChar '/' full
    let segs1 := if strStarts full "/" then segs.drop 1 else segs
    let out := dotStack [] segs1
    let out := if segs.getLast? = some "." ∨ segs.getLast? = some ".." then out ++ [""] else out
    "/" ++ joinStr '/' out

/-- Go `net/url.parseAuthority` with userinfo dropped and host validation
omitted: the host is everything after the last `@`. -/
def parseAuthority (auth : String) : String :=
  ⟨(cutList '@' auth.data.reverse).1.reverse⟩

/-- The classification of `net/url.parse` after the scheme and the query have
been split off: opaque versus authority versus path (the body of Go
`parse(rawURL, viaRequest)` after `getScheme` and the `?` cut). -/
def parseRest (viaRequest : Bool) (scheme rest rawQuery : String) : Except String GoURL :=
  if ¬ strStarts rest "/" ∧ scheme ≠ "" then
    .ok { Scheme := scheme, Opaque := rest, RawQuery := rawQuery }
  else if ¬ strStarts rest "/" ∧ viaRequest then .error "invalid URI for request"
  else if ¬ strStarts rest "/" ∧ goContains (cutChar rest '/').1 ":" then
    .error "first path segment in URL cannot contain colon"
  else if (scheme ≠ "" ∨ (¬ viaRequest ∧ ¬ strStarts rest "///")) ∧ strStarts rest "//" then
    match (cutList '/' (dropStr rest 2).data).2 with
    | none =>
      .ok { Scheme := scheme, Host := parseAuthority (dropStr rest 2), Path := "",
            RawQuery := rawQuery }
    | some tail =>
      .ok { Scheme := scheme, Host := parseAuthority ⟨(cutList '/' (dropStr rest 2).data).1⟩,
            Path := ⟨'/' :: tail⟩, RawQuery := rawQuery }
  else
    .ok { Scheme := scheme, Path := rest, RawQuery := rawQuery,
          OmitHost := scheme ≠ "" ∧ strStarts rest "/" }

/-- Go `net/url.parse(rawURL, viaRequest)`: scheme, query split, then
`parseRest`. -/
def parseGo (viaRequest : Bool) (rawURL : String) : Except String GoURL :=
  if rawURL = "" ∧ viaRequest then .error "empty url"
  else if rawURL = "*" then .ok { Path := "*" }
  else
    match getScheme rawURL with
    | .error e => .error e
    | .ok sr =>
      parseRest viaRequest (goToLower sr.1) (cutChar sr.2 '?').1 ((cutChar sr.2 '?').2.getD "")

/-- Go `url.Parse`: split the fragment at the first hash character, then
parse the rest with `viaRequest = false`. -/
def urlParse (rawURL : String) : Except String GoURL :=
  match parseGo false (cutChar rawURL '#').1 with
  | .error e => .error e
  | .ok u =>
    match (cutChar rawURL '#').2 with
    | none => .ok u
    | some f => .ok { u with Fragment := f }

/-- Go `url.ParseRequestURI` (the fragment is not split off). -/
def ParseRequestURI (rawURL : String) : Except String GoURL :=
  parseGo true rawURL

/-- Go `(*url.URL).ResolveReference` (without `User`). -/
def ResolveReference (u ref : GoURL) : GoURL :=
  if ref.Scheme ≠ "" ∨ ref.Host ≠ "" then
    { ref with Scheme := if ref.Scheme = "" then u.Scheme else ref.Scheme,
               Path := resolvePath ref.Path "" }
  else if ref.Opaque ≠ "" then
    { ref with Scheme := if ref.Scheme = "" then u.Scheme else ref.Scheme,
               Host := "", Path := "" }
  else if ref.Path = "" ∧ ref.RawQuery = "" then
    { ref with Scheme := if ref.Scheme = "" then u.Scheme else ref.Scheme,
               RawQuery := u.RawQuery,
               Fragment := if ref.Fragment = "" then u.Fragment else ref.Fragment,
               Host := u.Host, Path := resolvePath u.Path ref.Path }
  else
    { ref with Scheme := if ref.Scheme = "" then u.Scheme else ref.Scheme,
               Host := u.Host, Path := resolvePath u.Path ref.Path }

/-- Go `(*url.URL).Parse`: parse `ref` and resolve it against `u`. -/
def GoURL.ParseRef (u : GoURL) (ref : String) : Except String GoURL :=
  match urlParse ref with
  | .error e => .error e
  | .ok refURL => .ok (ResolveReference u refURL)

/-- The opaque/authority/path section of Go `(*url.URL).String()`. -/
def renderMain (u : GoURL) : String :=
  if u.Opaque ≠ "" then u.Opaque
  else
    (if u.Scheme ≠ "" ∨ u.Host ≠ "" then
       if u.OmitHost ∧ u.Host = "" then ""
       else (if u.Host ≠ "" ∨ u.Path ≠ "" then "//" else "") ++ u.Host
     else "") ++
    (if u.Path ≠ "" ∧ ¬ strStarts u.Path "/" ∧ u.Host ≠ "" then "/" else "") ++ u.Path

/-- The query section of Go `(*url.URL).String()`. -/
def renderQuery (u : GoURL) : String := if u.RawQuery ≠ "" then "?" ++ u.RawQuery else ""

/-- The fragment section of Go `(*url.URL).String()`: a hash is written only
when the fragment is non-empty. -/
def renderFrag (u : GoURL) : String := if u.Fragment ≠ "" then "#" ++ u.Fragment else ""

/-- Go `(*url.URL).String()` (without `User` and escaping). -/
def GoURL.render (u : GoURL) : String :=
  (if u.Scheme ≠ "" then u.Scheme ++ ":" else "") ++
    (renderMain u ++ (renderQuery u ++ renderFrag u))

/-! ### URL resolver: `AbsoluteURL` (src/unnamed/part_001) -/

/-- The vestigial `absURL.Scheme == "//"` patch of `AbsoluteURL` (a Go
`url.URL` can never carry that scheme, but the check is in the source). -/
def patchScheme (baseURL u : GoURL) : GoURL :=
  if u.Scheme = "//" then { u with Scheme := baseURL.Scheme } else u

/-- The final scheme whitelist of `AbsoluteURL`. -/
def validateScheme (u : GoURL) : Except String GoURL :=
  if u.Scheme ≠ "http" ∧ u.Scheme ≠ "https" then .error "unknown scheme" else .ok u

/-- The resolution stage of `AbsoluteURL` once the page URL has parsed:
resolve the href, strip the fragment, patch a literal `//` scheme, validate
the scheme. -/
def resolveStage (baseURL : GoURL) (href : String) : Except String GoURL :=
  match baseURL.ParseRef href with
  | .error _ => .error "base url could not be parsed with href"
  | .ok absURL0 => validateScheme (patchScheme baseURL { absURL0 with Fragment := "" })

/-- `AbsoluteURL` up to (but not including) the final `String()` call: the
resolved `GoURL` value the function renders, with the fragment already
stripped, the `//` scheme patched and the scheme validated. -/
def AbsoluteURLrec (pageURL href : String) : Except String GoURL :=
  if strStarts href "#" then .error "url has #"
  else
    match ParseRequestURI pageURL with
    | .error _ => .error "page url could not be parsed"
    | .ok baseURL => resolveStage baseURL href

/-- Model of `AbsoluteURL`: reject self-fragment hrefs, parse the page URL,
resolve the href against it, strip the fragment, patch a literal `//` scheme,
validate the scheme, and render. -/
def AbsoluteURL (pageURL href : String) : Except String String :=
  (AbsoluteURLrec pageURL href).map GoURL.render

/-- Go helper `URLExists` (linear membership scan). -/
def URLExists (urls : List String) (url : String) : Bool :=
  match urls with
  | [] => false
  | item :: rest => if item = url then true else URLExists rest url

/-- Go `CurrentTimestamp` returns the wall clock; the model fixes it to 0
(no verified property depends on time). -/
def CurrentTimestamp : Int := 0

/-! ### Data model and state tracker: `Scrapper` (src/unnamed/part_001)

Go maps are modelled as association lists with overwriting insert and erase;
only key membership and the stored values matter.  Each `Scrapper` method
holds the mutex for its whole body, so each method is one atomic step of the
model. -/

/-- `SucceededPage` record. -/
structure SucceededPage where
  Url : String
  Title : String
  Description : String
  ContentType : String
  ContentLength : Int
  Timestamp : Int
  Urls : List String
  Paragrahps : List String
deriving DecidableEq

/-- `FailedPage` record. -/
structure FailedPage where
  Url : String
  FailReason : String
  Timestamp : Int
deriving DecidableEq

/-- `ScrapeResult`: the value sent on a scrape unit's completion channel.
The Go `error` is modelled as `Option String` (`none` = nil error). -/
structure ScrapeResult where
  Page : Option SucceededPage
  Error : Option String
deriving DecidableEq

/-- Decidable equality of `Except` values (used to evaluate the model on
concrete inputs). -/
instance {ε α : Type} [DecidableEq ε] [DecidableEq α] : DecidableEq (Except ε α) := fun a b =>
  match a, b with
  | .error e, .error f =>
    if h : e = f then isTrue (by rw [h]) else isFalse (fun c => by cases c; exact h rfl)
  | .error _, .ok _ => isFalse fun h => Except.noConfusion h
  | .ok _, .error _ => isFalse fun h => Except.noConfusion h
  | .ok x, .ok y =>
    if h : x = y then isTrue (by rw [h]) else isFalse (fun c => by cases c; exact h rfl)

/-- Association-list lookup (Go map read `m[k]`). -/
def alookup {α : Type} : List (String × α) → String → Option α
  | [], _ => none
  | p :: rest, key => if p.1 = key then some p.2 else alookup rest key

/-- Association-list overwriting insert (Go map write `m[k] = v`). -/
def ainsert {α : Type} : List (String × α) → String → α → List (String × α)
  | [], key, v => [(key, v)]
  | p :: rest, key, v =>
    if p.1 = key then (p.1, v) :: rest else p :: ainsert rest key v

/-- Association-list erase (Go `delete(m, k)`). -/
def aerase {α : Type} : List (String × α) → String → List (String × α)
  | [], _ => []
  | p :: rest, key => if p.1 = key then aerase rest key else p :: aerase rest key

/-- The `Scrapper` state: succeeded pages, failed pages, in-process markers
(the stored goroutine id is vestigial — written, never read). -/
structure Scrapper where
  Succeed : List (String × SucceededPage)
  Failed : List (String × FailedPage)
  InProcess : List (String × Nat)
deriving DecidableEq

/-- `NewScrapper`: all three collections empty. -/
def NewScrapper : Scrapper :=
  { Succeed := [], Failed := [], InProcess := [] }

/-- `Scrapper.InitiateScrape`: mark the URL in-process (the goroutine id
`Scrapper.Id()` is modelled as 0; it is never read). -/
def InitiateScrape (s : Scrapper) (url : String) : Scrapper :=
  { s with InProcess := ainsert s.InProcess url 0 }

/-- `Scrapper.ScrapeSucceed`: one atomic step adding the success record and
removing the in-process marker. -/
def ScrapeSucceed (s : Scrapper) (url : String) (page : SucceededPage) : Scrapper :=
  { s with Succeed := ainsert s.Succeed url page, InProcess := aerase s.InProcess url }

/-- `Scrapper.ScrapeFailed`: one atomic step adding the failure record and
removing the in-process marker. -/
def ScrapeFailed (s : Scrapper) (url : String) (page : FailedPage) : Scrapper :=
  { s with Failed := ainsert s.Failed url page, InProcess := aerase s.InProcess url }

/-- `Scrapper.IsProcessed`: returns `false` when the URL is currently
in-process, `true` otherwise (the Go method's inverted naming is kept). -/
def IsProcessed (s : Scrapper) (url : String) : Bool :=
  (alookup s.InProcess url).isNone

/-- `Scrapper.IsVisited`: the URL has a success record. -/
def IsVisited (s : Scrapper) (url : String) : Bool :=
  (alookup s.Succeed url).isSome

/-- `Scrapper.IsFailed`: the URL has a failure record (declared in
`ScraperInterface`, implemented, and never called by `Scrape`). -/
def IsFailed (s : Scrapper) (url : String) : Bool :=
  (alookup s.Failed url).isSome

/-- `Scrapper.NumberOfPagesSucceed`. -/
def NumberOfPagesSucceed (s : Scrapper) : Nat := s.Succeed.length

/-- `Scrapper.NumberOfPagesFailed`. -/
def NumberOfPagesFailed (s : Scrapper) : Nat := s.Failed.length

/-! ### The web oracle and the HTML document model -/

/-- What goquery exposes of a parsed document, in document order: the text of
each `title` element, the `name`/`content` attributes of each `meta` element
(`none` = attribute absent), the text of each `p` element, and the `href`
attribute of each `a` element. -/
structure HtmlDoc where
  titles : List String
  metas : List (Option String × Option String)
  paragraphs : List String
  anchors : List (Option String)
deriving DecidableEq

/-- The outcomes the outside world holds ready for one URL: its HEAD request,
its GET request, and parsing its GET body with goquery. -/
structure UrlWorld where
  head : Transport
  get : Transport
  parse : Except String HtmlDoc

/-- The fetch oracle: the network as a function of the URL. -/
def Web : Type := String → UrlWorld

/-- The `doc.Find("title").Each` fold: each title element overwrites the
`title` variable with its normalised text. -/
def extractTitle (sz : String → String) (titles : List String) : String :=
  titles.foldl (fun _ t => TrimAndSanitize sz t) ""

/-- The `doc.Find("meta").Each` fold: a meta whose `name` case-insensitively
equals "description" sets the description to its `content` attribute, falling
back to the title when the attribute is absent. -/
def extractDescription (title : String) (metas : List (Option String × Option String)) : String :=
  metas.foldl
    (fun acc m =>
      if goEqualFold (m.1.getD "") "description" then
        match m.2 with
        | some content => content
        | none => title
      else acc)
    ""

/-- The `doc.Find("p").Each` fold: normalised paragraph texts, empties
dropped, order kept. -/
def extractParagraphs (sz : String → String) (ps : List String) : List String :=
  ps.foldl
    (fun acc t =>
      let para := TrimAndSanitize sz t
      if para ≠ "" then acc ++ [para] else acc)
    []

/-- The `doc.Find("a").Each` fold: resolve each present href against the page
URL, silently dropping resolution errors, deduplicating by final absolute
URL, first occurrence first. -/
def extractUrls (pageURL : String) (anchors : List (Option String)) : List String :=
  anchors.foldl
    (fun acc href =>
      match href with
      | none => acc
      | some h =>
        match AbsoluteURL pageURL h with
        | .error _ => acc
        | .ok absoluteUrl =>
          if ¬ URLExists acc absoluteUrl then acc ++ [absoluteUrl] else acc)
    []

/-! ### Scrape unit: `Scrapper.Scrape` (src/unnamed/part_001) -/

/-- A commit of one terminal record to the state tracker. -/
inductive Commit where
  | success (url : String) (page : SucceededPage)
  | failure (url : String) (page : FailedPage)
deriving DecidableEq

/-- Everything one run of `Scrape` does: the state tracker afterwards, the
values sent on the completion channel, the HTTP requests issued (method and
URL, in order), and the records committed. -/
structure ScrapeStep where
  state : Scrapper
  emits : List ScrapeResult
  requests : List (String × String)
  commits : List Commit
deriving DecidableEq

/-- Model of `Scrapper.Scrape`, one scrape unit run to completion: empty-URL
/ already-visited / still-in-process rejection, in-process marking, HEAD
fetch, content-type classification (non-HTML short-circuit), GET fetch,
parse, extraction, terminal commit; every path sends exactly one result. -/
def Scrape (web : Web) (sz : String → String) (s : Scrapper) (url : String) : ScrapeStep :=
  if url = "" then
    { state := s, emits := [⟨none, some "empty url"⟩], requests := [], commits := [] }
  else if IsVisited s url then
    { state := s, emits := [⟨none, some "page already visited"⟩], requests := [], commits := [] }
  else if ¬ IsProcessed s url then
    { state := s, emits := [⟨none, some "page still being processed"⟩], requests := [], commits := [] }
  else
    let s1 := InitiateScrape s url
    match RequestGo (web url).head with
    | .error headError =>
      let fp : FailedPage := { Url := url, FailReason := headError, Timestamp := CurrentTimestamp }
      { state := ScrapeFailed s1 url fp, emits := [⟨none, some headError⟩],
        requests := [("HEAD", url)], commits := [.failure url fp] }
    | .ok headResponse =>
      let contentLength := headResponse.ContentLength
      let contentType := goToLower headResponse.ContentType
      if ¬ goContains contentType "text/html" then
        let page : SucceededPage :=
          { Url := url, Title := "", Description := "", ContentType := contentType,
            ContentLength := contentLength, Timestamp := CurrentTimestamp,
            Urls := [], Paragrahps := [] }
        { state := ScrapeSucceed s1 url page, emits := [⟨some page, none⟩],
          requests := [("HEAD", url)], commits := [.success url page] }
      else
        match RequestGo (web url).get with
        | .error getError =>
          let fp : FailedPage := { Url := url, FailReason := getError, Timestamp := CurrentTimestamp }
          { state := ScrapeFailed s1 url fp, emits := [⟨none, some getError⟩],
            requests := [("HEAD", url), ("GET", url)], commits := [.failure url fp] }
        | .ok _ =>
          match (web url).parse with
          | .error parseError =>
            let fp : FailedPage := { Url := url, FailReason := parseError, Timestamp := CurrentTimestamp }
            { state := ScrapeFailed s1 url fp, emits := [⟨none, some parseError⟩],
              requests := [("HEAD", url), ("GET", url)], commits := [.failure url fp] }
          | .ok doc =>
            let title := extractTitle sz doc.titles
            let description := extractDescription title doc.metas
            let paragraphs := extractParagraphs sz doc.paragraphs
            let urls := extractUrls url doc.anchors
            let page : SucceededPage :=
              { Url := url, Title := title, Description := description,
                ContentType := contentType, ContentLength := contentLength,
                Timestamp := CurrentTimestamp, Urls := urls, Paragrahps := paragraphs }
            { state := ScrapeSucceed s1 url page, emits := [⟨some page, none⟩],
              requests := [("HEAD", url), ("GET", url)], commits := [.success url page] }

/-- The minimal success record the non-HTML short circuit builds from HEAD
metadata alone. -/
def headOnlyPage (url : String) (hr : HttpResponse) : SucceededPage :=
  { Url := url, Title := "", Description := "", ContentType := goToLower hr.ContentType,
    ContentLength := hr.ContentLength, Timestamp := CurrentTimestamp,
    Urls := [], Paragrahps := [] }

/-! ### Crawl orchestrator: `Collector.Crawl` / `Collector.StartCrawling`
(src/collector/collector.go)

The orchestrator launches one scrape unit per outbound link, consumes the one
result each unit sends, and recurses one level deeper into each successful
result.  The embedding runs the units in launch order (one admissible
schedule); alongside the tracker state it accumulates the list of HTTP
requests the run issues. -/

/-- Tracker state plus the trace of issued HTTP requests. -/
def RunState : Type := Scrapper × List (String × String)

/-- The result a launcher consumes from a scrape unit's channel: the single
element the unit emitted. -/
def consumeResult (step : ScrapeStep) : ScrapeResult :=
  step.emits.head?.getD ⟨none, none⟩

/-- The loop body of `Collector.Crawl` at one recursion level: scrape each
URL, consume its one result, and recurse (`deeper`) into the page of each
successful result. -/
def crawlLevel (web : Web) (sz : String → String)
    (deeper : RunState → Option SucceededPage → RunState) :
    RunState → List String → RunState
  | st, [] => st
  | st, u :: rest =>
    let step := Scrape web sz st.1 u
    let st1 : RunState := (step.state, st.2 ++ step.requests)
    let st2 :=
      match (consumeResult step).Page with
      | some p => deeper st1 (some p)
      | none => st1
    crawlLevel web sz deeper st2 rest

/-- `Collector.Crawl` with the (non-negative part of the) depth as fuel:
depth 0 returns at once, and at depth `n+1` an absent page returns at once
while a present page fans out over its links with `n` levels below. -/
def crawlN (web : Web) (sz : String → String) :
    Nat → RunState → Option SucceededPage → RunState
  | 0, st, _ => st
  | _ + 1, st, none => st
  | n + 1, st, some p =>
    crawlLevel web sz (fun st' pg => crawlN web sz n st' pg) st p.Urls

/-- `Collector.Crawl(page, depth)`: returns immediately when the page is
absent or `depth <= 0` (the `int` depth is clamped by `Int.toNat`). -/
def Crawl (web : Web) (sz : String → String)
    (st : RunState) (page : Option SucceededPage) (depth : Int) : RunState :=
  crawlN web sz depth.toNat st page

/-- `Collector.StartCrawling`: scrape the seed, consume its single result,
recurse into a successful seed page with `depth - 1`, and report the number
of succeeded pages. -/
def StartCrawling (web : Web) (sz : String → String)
    (seed : String) (depth : Int) : RunState × Nat :=
  let step := Scrape web sz NewScrapper seed
  let st1 : RunState := (step.state, step.requests)
  let st2 :=
    match (consumeResult step).Page with
    | some p => Crawl web sz st1 (some p) (depth - 1)
    | none => st1
  (st2, NumberOfPagesSucceed st2.1)

/-- The outbound links a fully successful scrape of `u` commits: the link
graph of the web oracle. -/
def webLinks (web : Web) (u : String) : List String :=
  match RequestGo (web u).head with
  | .error _ => []
  | .ok hr =>
    if ¬ goContains (goToLower hr.ContentType) "text/html" then []
    else
      match RequestGo (web u).get with
      | .error _ => []
      | .ok _ =>
        match (web u).parse with
        | .error _ => []
        | .ok doc => extractUrls u doc.anchors

/-- `HopsLe web n u v`: `v` is reachable from `u` in at most `n` hops of the
link graph `webLinks`. -/
inductive HopsLe (web : Web) : Nat → String → String → Prop
  | refl (n u) : HopsLe web n u u
  | step (n u v w) : v ∈ webLinks web u → HopsLe web n v w → HopsLe web (n + 1) u w

/-- `v` occupies a terminal collection (succeeded or failed) of the tracker. -/
def terminalMem (s : Scrapper) (v : String) : Prop :=
  IsVisited s v = true ∨ IsFailed s v = true

instance (s : Scrapper) (v : String) : Decidable (terminalMem s v) := by
  unfold terminalMem; infer_instance

/-! ### Audit log: `Loggers` / `NewCollector` (src/collector/collector.go)

`CreateLoggers` opens the log file; on failure `NewCollector` prints a
console warning and keeps the nil `*Loggers`.  `(*Loggers).Log` immediately
locks `l.Mutex`, which dereferences the receiver: with a nil receiver the Go
program panics.  `Except.error` marks a panic. -/

/-- The collector as far as logging is concerned: `Loggers` is `none` when
`CreateLoggers` failed (a nil Go pointer). -/
structure CollectorM where
  Loggers : Option Unit
  Depth : Int
deriving DecidableEq

/-- Model of `NewCollector`: seed validation, depth validation, then logger
creation whose failure is only printed, leaving a nil `Loggers`. -/
def NewCollector (seedParses : Bool) (depth : Int) (openLog : Except String Unit) :
    Except String CollectorM :=
  if ¬ seedParses then .error "seed is not valid url"
  else if depth ≤ 0 then .error "depth should be a positive number"
  else .ok { Loggers := openLog.toOption, Depth := depth }

/-- Model of `(*Loggers).Log`: locking `l.Mutex` on a nil receiver panics;
otherwise the write's own error is ignored by `log.Logger`. -/
def LoggersLog (l : Option Unit) : Except String Unit :=
  match l with
  | none => .error "runtime error: invalid memory address or nil pointer dereference"
  | some _ => .ok ()

/-- The first statement of `StartCrawling` that touches the logger
(`c.Loggers.Log(INFO, message)` on line 121). -/
def startCrawlingFirstLog (c : CollectorM) : Except String Unit :=
  LoggersLog c.Loggers

/-! ### Concrete inputs used by the closed theorems -/

/-- A 200 `text/html` response. -/
def htmlOK : Transport :=
  .response { StatusCode := 200, ContentType := "text/html", ContentLength := 10 }

/-- Seed page: anchors to `http://a.com/c` and `http://a.com/d`. -/
def docA : HtmlDoc :=
  { titles := [], metas := [], paragraphs := [],
    anchors := [some "http://a.com/c", some "http://a.com/d"] }

/-- Page `d`: one anchor back to `http://a.com/c`. -/
def docD : HtmlDoc :=
  { titles := [], metas := [], paragraphs := [],
    anchors := [some "http://a.com/c"] }

/-- A web where the seed links to `c` and `d`, `d` links to `c` again, and
`c` always fails at transport level. -/
def web1 : Web := fun u =>
  if u = "http://a.com/" then { head := htmlOK, get := htmlOK, parse := .ok docA }
  else if u = "http://a.com/d" then { head := htmlOK, get := htmlOK, parse := .ok docD }
  else { head := .doError "connection refused", get := .doError "connection refused",
         parse := .error "no body" }

/-- A web serving only a 200 `application/pdf` HEAD (no usable GET). -/
def webPdf : Web := fun _ =>
  { head := .response { StatusCode := 200, ContentType := "application/pdf", ContentLength := 512 },
    get := .doError "unreachable", parse := .error "no body" }

/-- A web where every request fails at transport level. -/
def webDown : Web := fun _ =>
  { head := .doError "connection refused", get := .doError "connection refused",
    parse := .error "no body" }

/-- The tracker after a first launch of `http://b.com/f.pdf` whose HEAD
failed at transport level: the URL is committed to the failed collection. -/
def sFail : Scrapper :=
  (Scrape webDown id NewScrapper "http://b.com/f.pdf").state

/-! ## Helper lemmas -/

theorem alookup_ainsert_self {α : Type} (m : List (String × α)) (k : String) (v : α) :
    alookup (ainsert m k v) k = some v := by
  induction m with
  | nil => simp [ainsert, alookup]
  | cons p rest ih =>
    by_cases h : p.1 = k
    · simp [ainsert, alookup, h]
    · simp [ainsert, alookup, h, ih]

theorem alookup_aerase_self {α : Type} (m : List (String × α)) (k : String) :
    alookup (aerase m k) k = none := by
  induction m with
  | nil => simp [aerase, alookup]
  | cons p rest ih =>
    by_cases h : p.1 = k
    · simp [aerase, h, ih]
    · simp [aerase, alookup, h, ih]

theorem alookup_ainsert_isSome {α : Type} (m : List (String × α)) (k k' : String) (v : α)
    (h : (alookup (ainsert m k v) k').isSome = true) :
    (alookup m k').isSome = true ∨ k' = k := by
  induction m with
  | nil =>
    simp only [ainsert, alookup] at h
    by_cases hk : k = k'
    · right; exact hk.symm
    · simp [hk] at h
  | cons p rest ih =>
    by_cases hp : p.1 = k
    · rw [ainsert, if_pos hp] at h
      by_cases hk : p.1 = k'
      · right; rw [← hk]; exact hp
      · rw [alookup, if_neg hk] at h
        left; rw [alookup, if_neg hk]; exact h
    · rw [ainsert, if_neg hp, alookup] at h
      by_cases hk : p.1 = k'
      · left; rw [alookup, if_pos hk]; simp
      · rw [if_neg hk] at h
        rcases ih h with h' | h'
        · left; rw [alookup, if_neg hk]; exact h'
        · right; exact h'

theorem alookup_aerase_isSome {α : Type} (m : List (String × α)) (k k' : String)
    (h : (alookup (aerase m k) k').isSome = true) :
    (alookup m k').isSome = true := by
  induction m with
  | nil => simp [aerase, alookup] at h
  | cons p rest ih =>
    by_cases hp : p.1 = k
    · rw [aerase, if_pos hp] at h
      rw [alookup]
      by_cases hk : p.1 = k'
      · simp [hk]
      · rw [if_neg hk]; exact ih h
    · rw [aerase, if_neg hp, alookup] at h
      rw [alookup]
      by_cases hk : p.1 = k'
      · rw [if_pos hk] at h ⊢; exact h
      · rw [if_neg hk] at h ⊢; exact ih h

/-! ## Claim theorems -/

/-- C7 counterexample: a 201 Created response is a successful 2xx response,
yet `Request.Request` rejects it (the code tests `StatusCode != 200`), so the
claim "every successful 2xx response is accepted" is false at status 201. -/
theorem request_rejects_201 :
    (RequestGo (.response { StatusCode := 201, ContentType := "", ContentLength := 0 })).isOk
      = false ∧ 200 ≤ 201 ∧ 201 < 300 := by
  decide

/-- C7 (amended): `Request.Request` returns an error exactly when request
construction fails, the transport fails (including timeout), or the status
code differs from 200; it returns the response exactly for status-200
responses. -/
theorem request_error_characterization (t : Transport) :
    ((∃ r, RequestGo t = .ok r) ↔ (∃ r, t = .response r ∧ r.StatusCode = 200)) ∧
    (∀ r, t = .response r → r.StatusCode = 200 → RequestGo t = .ok r) ∧
    ((RequestGo t).isOk = false ↔
      (∃ m, t = .newRequestError m) ∨ (∃ m, t = .doError m) ∨
      (∃ r, t = .response r ∧ r.StatusCode ≠ 200)) := by
  rcases t with m | m | r
  · simp [RequestGo, Except.isOk, Except.toBool]
  · simp [RequestGo, Except.isOk, Except.toBool]
  · by_cases h : r.StatusCode = 200
    · simp [RequestGo, h, Except.isOk, Except.toBool]
    · simp [RequestGo, h, Except.isOk, Except.toBool]

/-- C7 witness: a plain 200 response is accepted and returned. -/
theorem request_error_characterization_witness :
    RequestGo (.response { StatusCode := 200, ContentType := "", ContentLength := 0 }) =
      .ok { StatusCode := 200, ContentType := "", ContentLength := 0 } :=
  (request_error_characterization
      (.response { StatusCode := 200, ContentType := "", ContentLength := 0 })).2.1
    { StatusCode := 200, ContentType := "", ContentLength := 0 } rfl rfl

/-- C2 (code bug): after a first launch of `http://b.com/f.pdf` fails at
transport level (state `sFail`, computed by running the unit against the
unreachable web), a later launch of the same URL — against the web as
observed at that later time, now serving a 200 `application/pdf` HEAD — is
not stopped — `Scrape` checks `IsVisited` and `IsProcessed` but never
`IsFailed` — and on a 200 `application/pdf` HEAD it commits a success record
while `ScrapeSucceed` does not remove the URL from the failed collection: the
URL then occupies the succeeded and the failed collection simultaneously,
violating the partition invariant. -/
theorem succeeded_and_failed_overlap :
    IsFailed sFail "http://b.com/f.pdf" = true ∧
    IsVisited (Scrape webPdf id sFail "http://b.com/f.pdf").state "http://b.com/f.pdf" = true ∧
    IsFailed (Scrape webPdf id sFail "http://b.com/f.pdf").state "http://b.com/f.pdf" = true := by
  decide

/-- C1 (code bug): in the run of `web1` from seed `http://a.com/` at depth 3,
the URL `http://a.com/c` fails at its first launch and is committed to the
failed collection, yet the run issues a second HEAD request for it when page
`d` links to it again: a URL already terminal in the failed collection is
revisited and fetched again, because `Scrape` never consults `IsFailed`. -/
theorem failed_url_refetched :
    (StartCrawling web1 id "http://a.com/" 3).1.2.count ("HEAD", "http://a.com/c") = 2 ∧
    IsFailed (StartCrawling web1 id "http://a.com/" 3).1.1 "http://a.com/c" = true := by
  decide

/-- C8 (code bug): when `CreateLoggers` fails, `NewCollector` prints a
console warning but still returns a collector whose `Loggers` is nil; the
very first `c.Loggers.Log(INFO, ...)` of `StartCrawling` then dereferences
the nil receiver (`l.Mutex.Lock()`) and panics, so a failure to open the
audit log aborts the crawl instead of degrading to a warning. -/
theorem nil_logger_crashes_crawl :
    NewCollector true 2 (.error "open logs.txt: permission denied") =
      .ok { Loggers := none, Depth := 2 } ∧
    startCrawlingFirstLog { Loggers := none, Depth := 2 } =
      .error "runtime error: invalid memory address or nil pointer dereference" := by
  decide

/-- C4: when the HEAD succeeds with a content type that does not contain
`text/html` (for example `application/pdf`), the scrape unit issues only the
HEAD request — no GET — and commits a success record built from the HEAD
metadata alone, with empty title, description, paragraphs and link list. -/
theorem nonhtml_head_short_circuit (web : Web) (sz : String → String) (s : Scrapper)
    (url : String) (hr : HttpResponse)
    (hne : url ≠ "")
    (hvis : IsVisited s url = false)
    (hproc : IsProcessed s url = true)
    (hhead : RequestGo (web url).head = .ok hr)
    (hct : goContains (goToLower hr.ContentType) "text/html" = false) :
    Scrape web sz s url =
      { state := ScrapeSucceed (InitiateScrape s url) url (headOnlyPage url hr),
        emits := [⟨some (headOnlyPage url hr), none⟩],
        requests := [("HEAD", url)],
        commits := [Commit.success url (headOnlyPage url hr)] } := by
  unfold Scrape
  rw [if_neg hne, if_neg (by rw [hvis]; simp), if_neg (fun hc => hc hproc), hhead]
  simp [hct, headOnlyPage]

/-- C4 witness: a concrete 200 `application/pdf` HEAD on a fresh tracker. -/
theorem nonhtml_head_short_circuit_witness :
    Scrape webPdf id NewScrapper "http://b.com/f.pdf" =
      { state := ScrapeSucceed (InitiateScrape NewScrapper "http://b.com/f.pdf")
          "http://b.com/f.pdf"
          (headOnlyPage "http://b.com/f.pdf"
            { StatusCode := 200, ContentType := "application/pdf", ContentLength := 512 }),
        emits := [⟨some (headOnlyPage "http://b.com/f.pdf"
          { StatusCode := 200, ContentType := "application/pdf", ContentLength := 512 }), none⟩],
        requests := [("HEAD", "http://b.com/f.pdf")],
        commits := [Commit.success "http://b.com/f.pdf"
          (headOnlyPage "http://b.com/f.pdf"
            { StatusCode := 200, ContentType := "application/pdf", ContentLength := 512 })] } :=
  nonhtml_head_short_circuit webPdf id NewScrapper "http://b.com/f.pdf"
    { StatusCode := 200, ContentType := "application/pdf", ContentLength := 512 }
    (by decide) (by decide) (by decide) (by decide) (by decide)

/-- C10: on every early-return path of the scrape unit — empty URL, URL
already succeeded, URL already in-process — the unit emits one result with a
nil page and a non-nil error, issues no request, commits no record, leaves
the tracker unchanged, and the orchestrator's loop treats the launch as a
no-op (in particular it never recurses into such a result). -/
theorem scrape_early_return_no_commit (web : Web) (sz : String → String) (s : Scrapper)
    (url : String)
    (h : url = "" ∨ IsVisited s url = true ∨ IsProcessed s url = false) :
    (∃ msg, Scrape web sz s url =
        { state := s, emits := [⟨none, some msg⟩], requests := [], commits := [] }) ∧
    (consumeResult (Scrape web sz s url)).Page = none ∧
    (consumeResult (Scrape web sz s url)).Error ≠ none ∧
    (∀ deeper tr rest,
        crawlLevel web sz deeper (s, tr) (url :: rest) = crawlLevel web sz deeper (s, tr) rest) := by
  have heq : ∃ msg, Scrape web sz s url =
      { state := s, emits := [⟨none, some msg⟩], requests := [], commits := [] } := by
    by_cases h1 : url = ""
    · exact ⟨"empty url", by unfold Scrape; rw [if_pos h1]⟩
    · by_cases h2 : IsVisited s url = true
      · exact ⟨"page already visited", by unfold Scrape; rw [if_neg h1, if_pos h2]⟩
      · have h3 : IsProcessed s url = false := by
          rcases h with h | h | h
          · exact absurd h h1
          · exact absurd h h2
          · exact h
        refine ⟨"page still being processed", ?_⟩
        unfold Scrape
        rw [if_neg h1, if_neg h2, if_pos (by rw [h3]; simp)]
  obtain ⟨msg, heq⟩ := heq
  refine ⟨⟨msg, heq⟩, ?_, ?_, ?_⟩
  · rw [heq]; rfl
  · rw [heq]; simp [consumeResult]
  · intro deeper tr rest
    conv_lhs => rw [crawlLevel]
    rw [heq]
    simp [consumeResult]

/-- C10 witness: the empty URL on a fresh tracker. -/
theorem scrape_early_return_no_commit_witness :
    (∃ msg, Scrape webDown id NewScrapper "" =
        { state := NewScrapper, emits := [⟨none, some msg⟩], requests := [], commits := [] }) ∧
    (consumeResult (Scrape webDown id NewScrapper "")).Page = none :=
  ⟨(scrape_early_return_no_commit webDown id NewScrapper "" (Or.inl rfl)).1,
   (scrape_early_return_no_commit webDown id NewScrapper "" (Or.inl rfl)).2.1⟩

/-- Case characterization of one `Scrape` run: exactly one emission; no
commit means no state change; any commit is one atomic `ScrapeFailed` or
`ScrapeSucceed` on the marked state; a run that reached the network commits
exactly once; after a commit the URL is not in-process. -/
theorem scrape_cases (web : Web) (sz : String → String) (s : Scrapper) (url : String) :
    (Scrape web sz s url).emits.length = 1 ∧
    ((Scrape web sz s url).commits = [] → (Scrape web sz s url).state = s) ∧
    ((Scrape web sz s url).commits = [] ∨
      (∃ fp, (Scrape web sz s url).commits = [Commit.failure url fp] ∧
        (Scrape web sz s url).state = ScrapeFailed (InitiateScrape s url) url fp) ∨
      (∃ pg, (Scrape web sz s url).commits = [Commit.success url pg] ∧
        (Scrape web sz s url).state = ScrapeSucceed (InitiateScrape s url) url pg)) ∧
    ((Scrape web sz s url).requests ≠ [] → (Scrape web sz s url).commits.length = 1) ∧
    ((Scrape web sz s url).commits ≠ [] → IsProcessed (Scrape web sz s url).state url = true) := by
  have hproc_fail : ∀ fp, IsProcessed (ScrapeFailed (InitiateScrape s url) url fp) url = true := by
    intro fp
    simp [IsProcessed, ScrapeFailed, InitiateScrape, alookup_aerase_self]
  have hproc_succ : ∀ pg, IsProcessed (ScrapeSucceed (InitiateScrape s url) url pg) url = true := by
    intro pg
    simp [IsProcessed, ScrapeSucceed, InitiateScrape, alookup_aerase_self]
  by_cases h1 : url = ""
  · have heq : Scrape web sz s url =
        { state := s, emits := [⟨none, some "empty url"⟩], requests := [], commits := [] } := by
      unfold Scrape; rw [if_pos h1]
    rw [heq]
    exact ⟨rfl, fun _ => rfl, Or.inl rfl, fun h => absurd rfl h, fun h => absurd rfl h⟩
  · by_cases h2 : IsVisited s url = true
    · have heq : Scrape web sz s url =
          { state := s, emits := [⟨none, some "page already visited"⟩],
            requests := [], commits := [] } := by
        unfold Scrape; rw [if_neg h1, if_pos h2]
      rw [heq]
      exact ⟨rfl, fun _ => rfl, Or.inl rfl, fun h => absurd rfl h, fun h => absurd rfl h⟩
    · by_cases h3 : IsProcessed s url = true
      · rcases hh : RequestGo (web url).head with e | hr
        · have heq : Scrape web sz s url =
              { state := ScrapeFailed (InitiateScrape s url) url ⟨url, e, CurrentTimestamp⟩,
                emits := [⟨none, some e⟩], requests := [("HEAD", url)],
                commits := [Commit.failure url ⟨url, e, CurrentTimestamp⟩] } := by
            unfold Scrape
            rw [if_neg h1, if_neg h2, if_neg (fun hc => hc h3), hh]
          rw [heq]
          exact ⟨rfl, fun h => by simp at h, Or.inr (Or.inl ⟨_, rfl, rfl⟩),
            fun _ => rfl, fun _ => hproc_fail _⟩
        · by_cases h4 : goContains (goToLower hr.ContentType) "text/html" = true
          · rcases hg : RequestGo (web url).get with e | gr
            · have heq : Scrape web sz s url =
                  { state := ScrapeFailed (InitiateScrape s url) url ⟨url, e, CurrentTimestamp⟩,
                    emits := [⟨none, some e⟩], requests := [("HEAD", url), ("GET", url)],
                    commits := [Commit.failure url ⟨url, e, CurrentTimestamp⟩] } := by
                unfold Scrape
                rw [if_neg h1, if_neg h2, if_neg (fun hc => hc h3), hh]
                simp [h4, hg]
              rw [heq]
              exact ⟨rfl, fun h => by simp at h, Or.inr (Or.inl ⟨_, rfl, rfl⟩),
                fun _ => rfl, fun _ => hproc_fail _⟩
            · rcases hp : (web url).parse with e | doc
              · have heq : Scrape web sz s url =
                    { state := ScrapeFailed (InitiateScrape s url) url ⟨url, e, CurrentTimestamp⟩,
                      emits := [⟨none, some e⟩], requests := [("HEAD", url), ("GET", url)],
                      commits := [Commit.failure url ⟨url, e, CurrentTimestamp⟩] } := by
                  unfold Scrape
                  rw [if_neg h1, if_neg h2, if_neg (fun hc => hc h3), hh]
                  simp [h4, hg, hp]
                rw [heq]
                exact ⟨rfl, fun h => by simp at h, Or.inr (Or.inl ⟨_, rfl, rfl⟩),
                  fun _ => rfl, fun _ => hproc_fail _⟩
              · have heq : Scrape web sz s url =
                    { state := ScrapeSucceed (InitiateScrape s url) url
                        { Url := url, Title := extractTitle sz doc.titles,
                          Description := extractDescription (extractTitle sz doc.titles) doc.metas,
                          ContentType := goToLower hr.ContentType,
                          ContentLength := hr.ContentLength, Timestamp := CurrentTimestamp,
                          Urls := extractUrls url doc.anchors,
                          Paragrahps := extractParagraphs sz doc.paragraphs },
                      emits := [⟨some
                        { Url := url, Title := extractTitle sz doc.titles,
                          Description := extractDescription (extractTitle sz doc.titles) doc.metas,
                          ContentType := goToLower hr.ContentType,
                          ContentLength := hr.ContentLength, Timestamp := CurrentTimestamp,
                          Urls := extractUrls url doc.anchors,
                          Paragrahps := extractParagraphs sz doc.paragraphs }, none⟩],
                      requests := [("HEAD", url), ("GET", url)],
                      commits := [Commit.success url
                        { Url := url, Title := extractTitle sz doc.titles,
                          Description := extractDescription (extractTitle sz doc.titles) doc.metas,
                          ContentType := goToLower hr.ContentType,
                          ContentLength := hr.ContentLength, Timestamp := CurrentTimestamp,
                          Urls := extractUrls url doc.anchors,
                          Paragrahps := extractParagraphs sz doc.paragraphs }] } := by
                  unfold Scrape
                  rw [if_neg h1, if_neg h2, if_neg (fun hc => hc h3), hh]
                  simp [h4, hg, hp]
                rw [heq]
                exact ⟨rfl, fun h => by simp at h, Or.inr (Or.inr ⟨_, rfl, rfl⟩),
                  fun _ => rfl, fun _ => hproc_succ _⟩
          · have h4f : goContains (goToLower hr.ContentType) "text/html" = false := by
              rw [Bool.not_eq_true] at h4; exact h4
            have heq : Scrape web sz s url =
                { state := ScrapeSucceed (InitiateScrape s url) url (headOnlyPage url hr),
                  emits := [⟨some (headOnlyPage url hr), none⟩],
                  requests := [("HEAD", url)],
                  commits := [Commit.success url (headOnlyPage url hr)] } := by
              unfold Scrape
              rw [if_neg h1, if_neg h2, if_neg (fun hc => hc h3), hh]
              simp [h4f, headOnlyPage]
            rw [heq]
            exact ⟨rfl, fun h => by simp at h, Or.inr (Or.inr ⟨_, rfl, rfl⟩),
              fun _ => rfl, fun _ => hproc_succ _⟩
      · have heq : Scrape web sz s url =
            { state := s, emits := [⟨none, some "page still being processed"⟩],
              requests := [], commits := [] } := by
          unfold Scrape; rw [if_neg h1, if_neg h2, if_pos (fun hc => h3 hc)]
        rw [heq]
        exact ⟨rfl, fun _ => rfl, Or.inl rfl, fun h => absurd rfl h, fun h => absurd rfl h⟩

/-- C5: every run of a scrape unit emits exactly one result on its channel
(the launcher consumes that unique element); a run that commits nothing
leaves the tracker untouched; every commit is a single atomic
`ScrapeSucceed`/`ScrapeFailed` call on the marked state, which adds the one
terminal record and removes the in-flight marker in the same logical step; a
run that reached the network commits exactly one record, and after any commit
the URL is no longer in-flight. -/
theorem scrape_exactly_once (web : Web) (sz : String → String) (s : Scrapper) (url : String) :
    (Scrape web sz s url).emits.length = 1 ∧
    ((Scrape web sz s url).commits = [] → (Scrape web sz s url).state = s) ∧
    ((Scrape web sz s url).commits = [] ∨
      (∃ fp, (Scrape web sz s url).commits = [Commit.failure url fp] ∧
        (Scrape web sz s url).state = ScrapeFailed (InitiateScrape s url) url fp) ∨
      (∃ pg, (Scrape web sz s url).commits = [Commit.success url pg] ∧
        (Scrape web sz s url).state = ScrapeSucceed (InitiateScrape s url) url pg)) ∧
    ((Scrape web sz s url).requests ≠ [] → (Scrape web sz s url).commits.length = 1) ∧
    ((Scrape web sz s url).commits ≠ [] → IsProcessed (Scrape web sz s url).state url = true) :=
  scrape_cases web sz s url

/-- C5 witness: the unit for a PDF URL on a fresh tracker emits exactly one
result. -/
theorem scrape_exactly_once_witness :
    (Scrape webPdf id NewScrapper "http://b.com/f.pdf").emits.length = 1 :=
  (scrape_exactly_once webPdf id NewScrapper "http://b.com/f.pdf").1

/-- One scrape run can add at most the scraped URL itself to the terminal
collections. -/
theorem scrape_state_terminal (web : Web) (sz : String → String) (s : Scrapper)
    (url v : String)
    (h : terminalMem (Scrape web sz s url).state v) : terminalMem s v ∨ v = url := by
  rcases (scrape_cases web sz s url).2.2 with hc | ⟨fp, hcom, hst⟩ | ⟨pg, hcom, hst⟩
  · have hs := (scrape_cases web sz s url).2.1 hc
    rw [hs] at h; exact Or.inl h
  · rw [hst] at h
    rcases h with h | h
    · exact Or.inl (Or.inl (by simpa [IsVisited, ScrapeFailed, InitiateScrape] using h))
    · have h' := alookup_ainsert_isSome s.Failed url v fp
        (by simpa [IsFailed, ScrapeFailed, InitiateScrape] using h)
      rcases h' with h' | h'
      · exact Or.inl (Or.inr h')
      · exact Or.inr h'
  · rw [hst] at h
    rcases h with h | h
    · have h' := alookup_ainsert_isSome s.Succeed url v pg
        (by simpa [IsVisited, ScrapeSucceed, InitiateScrape] using h)
      rcases h' with h' | h'
      · exact Or.inl (Or.inl h')
      · exact Or.inr h'
    · exact Or.inl (Or.inr (by simpa [IsFailed, ScrapeSucceed, InitiateScrape] using h))

/-- A page consumed from a scrape unit carries exactly the link list of the
web oracle's link graph at that URL. -/
theorem scrape_page_links (web : Web) (sz : String → String) (s : Scrapper)
    (url : String) (p : SucceededPage)
    (h : (consumeResult (Scrape web sz s url)).Page = some p) :
    p.Urls = webLinks web url := by
  by_cases h1 : url = ""
  · rw [show Scrape web sz s url =
        { state := s, emits := [⟨none, some "empty url"⟩], requests := [], commits := [] } from
        by unfold Scrape; rw [if_pos h1]] at h
    simp [consumeResult] at h
  · by_cases h2 : IsVisited s url = true
    · rw [show Scrape web sz s url =
          { state := s, emits := [⟨none, some "page already visited"⟩],
            requests := [], commits := [] } from
          by unfold Scrape; rw [if_neg h1, if_pos h2]] at h
      simp [consumeResult] at h
    · by_cases h3 : IsProcessed s url = true
      · rcases hh : RequestGo (web url).head with e | hr
        · rw [show Scrape web sz s url =
              { state := ScrapeFailed (InitiateScrape s url) url ⟨url, e, CurrentTimestamp⟩,
                emits := [⟨none, some e⟩], requests := [("HEAD", url)],
                commits := [Commit.failure url ⟨url, e, CurrentTimestamp⟩] } from by
              unfold Scrape
              rw [if_neg h1, if_neg h2, if_neg (fun hc => hc h3), hh]] at h
          simp [consumeResult] at h
        · by_cases h4 : goContains (goToLower hr.ContentType) "text/html" = true
          · rcases hg : RequestGo (web url).get with e | gr
            · rw [show Scrape web sz s url =
                  { state := ScrapeFailed (InitiateScrape s url) url ⟨url, e, CurrentTimestamp⟩,
                    emits := [⟨none, some e⟩], requests := [("HEAD", url), ("GET", url)],
                    commits := [Commit.failure url ⟨url, e, CurrentTimestamp⟩] } from by
                  unfold Scrape
                  rw [if_neg h1, if_neg h2, if_neg (fun hc => hc h3), hh]
                  simp [h4, hg]] at h
              simp [consumeResult] at h
            · rcases hp : (web url).parse with e | doc
              · rw [show Scrape web sz s url =
                    { state := ScrapeFailed (InitiateScrape s url) url ⟨url, e, CurrentTimestamp⟩,
                      emits := [⟨none, some e⟩], requests := [("HEAD", url), ("GET", url)],
                      commits := [Commit.failure url ⟨url, e, CurrentTimestamp⟩] } from by
                    unfold Scrape
                    rw [if_neg h1, if_neg h2, if_neg (fun hc => hc h3), hh]
                    simp [h4, hg, hp]] at h
                simp [consumeResult] at h
              · have hpage : (consumeResult (Scrape web sz s url)).Page =
                    some { Url := url, Title := extractTitle sz doc.titles,
                           Description := extractDescription (extractTitle sz doc.titles) doc.metas,
                           ContentType := goToLower hr.ContentType,
                           ContentLength := hr.ContentLength, Timestamp := CurrentTimestamp,
                           Urls := extractUrls url doc.anchors,
                           Paragrahps := extractParagraphs sz doc.paragraphs } := by
                  rw [show Scrape web sz s url =
                      { state := ScrapeSucceed (InitiateScrape s url) url
                          { Url := url, Title := extractTitle sz doc.titles,
                            Description := extractDescription (extractTitle sz doc.titles) doc.metas,
                            ContentType := goToLower hr.ContentType,
                            ContentLength := hr.ContentLength, Timestamp := CurrentTimestamp,
                            Urls := extractUrls url doc.anchors,
                            Paragrahps := extractParagraphs sz doc.paragraphs },
                        emits := [⟨some
                          { Url := url, Title := extractTitle sz doc.titles,
                            Description := extractDescription (extractTitle sz doc.titles) doc.metas,
                            ContentType := goToLower hr.ContentType,
                            ContentLength := hr.ContentLength, Timestamp := CurrentTimestamp,
                            Urls := extractUrls url doc.anchors,
                            Paragrahps := extractParagraphs sz doc.paragraphs }, none⟩],
                        requests := [("HEAD", url), ("GET", url)],
                        commits := [Commit.success url
                          { Url := url, Title := extractTitle sz doc.titles,
                            Description := extractDescription (extractTitle sz doc.titles) doc.metas,
                            ContentType := goToLower hr.ContentType,
                            ContentLength := hr.ContentLength, Timestamp := CurrentTimestamp,
                            Urls := extractUrls url doc.anchors,
                            Paragrahps := extractParagraphs sz doc.paragraphs }] } from by
                      unfold Scrape
                      rw [if_neg h1, if_neg h2, if_neg (fun hc => hc h3), hh]
                      simp [h4, hg, hp]]
                  rfl
                rw [hpage] at h
                have hp' := Option.some.inj h
                rw [← hp']
                simp [webLinks, hh, h4, hg, hp]
          · have h4f : goContains (goToLower hr.ContentType) "text/html" = false := by
              rw [Bool.not_eq_true] at h4; exact h4
            have hpage : (consumeResult (Scrape web sz s url)).Page =
                some (headOnlyPage url hr) := by
              rw [show Scrape web sz s url =
                  { state := ScrapeSucceed (InitiateScrape s url) url (headOnlyPage url hr),
                    emits := [⟨some (headOnlyPage url hr), none⟩],
                    requests := [("HEAD", url)],
                    commits := [Commit.success url (headOnlyPage url hr)] } from by
                  unfold Scrape
                  rw [if_neg h1, if_neg h2, if_neg (fun hc => hc h3), hh]
                  simp [h4f, headOnlyPage]]
              rfl
            rw [hpage] at h
            have hp' := Option.some.inj h
            rw [← hp']
            simp [webLinks, hh, h4f, headOnlyPage]
      · rw [show Scrape web sz s url =
            { state := s, emits := [⟨none, some "page still being processed"⟩],
              requests := [], commits := [] } from
            by unfold Scrape; rw [if_neg h1, if_neg h2, if_pos (fun hc => h3 hc)]] at h
        simp [consumeResult] at h

/-- Hop bounds are monotone. -/
theorem hopsLe_mono (web : Web) (m n : Nat) (u v : String)
    (hmn : m ≤ n) (h : HopsLe web m u v) : HopsLe web n u v := by
  induction h generalizing n with
  | refl k u' => exact HopsLe.refl n u'
  | step k u' v' w hmem _ ih =>
    obtain ⟨n', rfl⟩ : ∃ n', n = n' + 1 := ⟨n - 1, by omega⟩
    exact HopsLe.step n' u' v' w hmem (ih n' (by omega))

/-- Depth-bounded reach of the crawl recursion: with fuel `n`, a URL newly
committed below a page is at most `n` hops from one of the page's links, and
new commits only happen with positive fuel. -/
theorem crawlN_bound (web : Web) (sz : String → String) :
    ∀ (n : Nat) (st : RunState) (page : Option SucceededPage) (v : String),
      terminalMem (crawlN web sz n st page).1 v →
      terminalMem st.1 v ∨
        ∃ p, page = some p ∧ ∃ u ∈ p.Urls, HopsLe web n u v ∧ 1 ≤ n := by
  intro n
  induction n with
  | zero =>
    intro st page v h
    exact Or.inl (by simpa [crawlN] using h)
  | succ n ih =>
    intro st page v h
    rcases page with _ | p
    · exact Or.inl (by simpa [crawlN] using h)
    · have key : ∀ (urls : List String) (st : RunState),
          terminalMem (crawlLevel web sz (fun st' pg => crawlN web sz n st' pg) st urls).1 v →
          terminalMem st.1 v ∨ ∃ u ∈ urls, HopsLe web (n + 1) u v := by
        intro urls
        induction urls with
        | nil =>
          intro st h'
          exact Or.inl (by simpa [crawlLevel] using h')
        | cons u rest ihl =>
          intro st h'
          rw [crawlLevel] at h'
          rcases hpg : (consumeResult (Scrape web sz st.1 u)).Page with _ | p'
          · rw [hpg] at h'
            rcases ihl _ h' with h'' | ⟨u', hu', hh'⟩
            · rcases scrape_state_terminal web sz st.1 u v h'' with h3 | h3
              · exact Or.inl h3
              · refine Or.inr ⟨u, List.mem_cons_self u rest, ?_⟩
                rw [← h3]; exact HopsLe.refl _ _
            · exact Or.inr ⟨u', List.mem_cons_of_mem u hu', hh'⟩
          · rw [hpg] at h'
            rcases ihl _ h' with h'' | ⟨u', hu', hh'⟩
            · rcases ih _ _ _ h'' with h3 | ⟨p'', hp'', u3, hu3m, hle, _⟩
              · rcases scrape_state_terminal web sz st.1 u v h3 with h4 | h4
                · exact Or.inl h4
                · refine Or.inr ⟨u, List.mem_cons_self u rest, ?_⟩
                  rw [← h4]; exact HopsLe.refl _ _
              · have hpp := Option.some.inj hp''
                have hlinks : p'.Urls = webLinks web u :=
                  scrape_page_links web sz st.1 u p' hpg
                refine Or.inr ⟨u, List.mem_cons_self u rest, ?_⟩
                refine HopsLe.step n u u3 v ?_ hle
                rw [← hlinks, hpp]
                exact hu3m
            · exact Or.inr ⟨u', List.mem_cons_of_mem u hu', hh'⟩
      rw [crawlN] at h
      rcases key p.Urls st h with h' | ⟨u, hu, hle⟩
      · exact Or.inl h'
      · exact Or.inr ⟨p, rfl, u, hu, hle, Nat.le_add_left 1 n⟩

/-- C6: every URL that a crawl started at `seed` with maximum depth `d`
commits to a terminal collection is within `d` hops of the seed in the link
graph — equivalently, no URL at graph distance greater than `d` ever appears
in the succeeded or the failed collection; moreover the recursive crawl
returns immediately when its depth parameter is at most 0 or its page record
is absent, consuming one depth level per recursion. -/
theorem crawl_depth_bound (web : Web) (sz : String → String) (seed : String) (d : Int)
    (v : String)
    (hv : terminalMem (StartCrawling web sz seed d).1.1 v) :
    HopsLe web d.toNat seed v ∧
    (∀ st page dd, dd ≤ 0 → Crawl web sz st page dd = st) ∧
    (∀ st dd, Crawl web sz st none dd = st) := by
  refine ⟨?_, ?_, ?_⟩
  · have hempty : ¬ terminalMem NewScrapper v := by
      simp [terminalMem, IsVisited, IsFailed, NewScrapper, alookup]
    rw [StartCrawling] at hv
    rcases hpg : (consumeResult (Scrape web sz NewScrapper seed)).Page with _ | p
    · rw [hpg] at hv
      rcases scrape_state_terminal web sz NewScrapper seed v hv with h | h
      · exact absurd h hempty
      · rw [← h]; exact HopsLe.refl _ _
    · rw [hpg] at hv
      rcases crawlN_bound web sz (d - 1).toNat
          ((Scrape web sz NewScrapper seed).state, (Scrape web sz NewScrapper seed).requests)
          (some p) v hv with h | ⟨p', hp', u, hu, hle, hn⟩
      · rcases scrape_state_terminal web sz NewScrapper seed v h with h' | h'
        · exact absurd h' hempty
        · rw [← h']; exact HopsLe.refl _ _
      · have hpp := Option.some.inj hp'
        have hlinks : p.Urls = webLinks web seed :=
          scrape_page_links web sz NewScrapper seed p hpg
        have hstep : HopsLe web ((d - 1).toNat + 1) seed v := by
          refine HopsLe.step _ seed u v ?_ hle
          rw [← hlinks, hpp]; exact hu
        exact hopsLe_mono web _ _ _ _ (by omega) hstep
  · intro st page dd hdd
    have h0 : dd.toNat = 0 := Int.toNat_of_nonpos hdd
    show crawlN web sz dd.toNat st page = st
    rw [h0]
    cases page <;> rfl
  · intro st dd
    show crawlN web sz dd.toNat st none = st
    cases dd.toNat with
    | zero => rfl
    | succ n => rfl

/-- C6 witness: on a fully unreachable web the seed itself is the only
terminal URL and is within depth 1 of itself. -/
theorem crawl_depth_bound_witness :
    terminalMem (StartCrawling webDown id "http://s.com/" 1).1.1 "http://s.com/" ∧
    HopsLe webDown 1 "http://s.com/" "http://s.com/" :=
  ⟨by decide,
   (crawl_depth_bound webDown id "http://s.com/" 1 "http://s.com/" (by decide)).1⟩

/-- After a deleted run, collapsing continues as if restarted, provided the
next character is not whitespace. -/
theorem collapseAux_true_head (l : List Char)
    (hl : ∀ c, l.head? = some c → reWS c = false) :
    collapseAux true l = collapseAux false l := by
  cases l with
  | nil => rfl
  | cons c cs =>
    have hc : reWS c = false := hl c rfl
    simp [collapseAux, hc]

/-- A whole whitespace run is deleted in the `inRun` state. -/
theorem collapseAux_true_run (run l : List Char)
    (hrun : ∀ c ∈ run, reWS c = true)
    (hl : ∀ c, l.head? = some c → reWS c = false) :
    collapseAux true (run ++ l) = collapseAux false l := by
  induction run with
  | nil => simpa using collapseAux_true_head l hl
  | cons r rs ih =>
    have hr : reWS r = true := hrun r (List.mem_cons_self r rs)
    have hstep : collapseAux true (r :: (rs ++ l)) = collapseAux true (rs ++ l) := by
      simp [collapseAux, hr]
    rw [List.cons_append, hstep, ih (fun c hc => hrun c (List.mem_cons_of_mem r hc))]

/-- A maximal run of two or more whitespace characters is replaced by the
empty string. -/
theorem collapse_run_ge2 (xs run ys : List Char)
    (hxs : ∀ c ∈ xs, reWS c = false)
    (hrun : ∀ c ∈ run, reWS c = true)
    (hlen : 2 ≤ run.length)
    (hys : ∀ c, ys.head? = some c → reWS c = false) :
    collapseWS (xs ++ run ++ ys) = xs ++ collapseWS ys := by
  induction xs with
  | nil =>
    obtain ⟨r1, rs1, rfl⟩ : ∃ r1 rs1, run = r1 :: rs1 := by
      cases run with
      | nil => simp at hlen
      | cons a b => exact ⟨a, b, rfl⟩
    obtain ⟨r2, rs, rfl⟩ : ∃ r2 rs, rs1 = r2 :: rs := by
      cases rs1 with
      | nil => simp at hlen
      | cons a b => exact ⟨a, b, rfl⟩
    have h1 : reWS r1 = true := hrun r1 (by simp)
    have h2 : reWS r2 = true := hrun r2 (by simp)
    unfold collapseWS
    calc collapseAux false (([] : List Char) ++ (r1 :: r2 :: rs) ++ ys)
        = collapseAux false (r1 :: r2 :: (rs ++ ys)) := by simp
      _ = collapseAux true (r2 :: (rs ++ ys)) := by simp [collapseAux, h1, h2]
      _ = collapseAux true ((r2 :: rs) ++ ys) := by simp
      _ = collapseAux false ys :=
          collapseAux_true_run (r2 :: rs) ys
            (fun c hc => hrun c (List.mem_cons_of_mem r1 hc)) hys
      _ = [] ++ collapseAux false ys := by simp
  | cons x xs' ih =>
    have ih' := ih (fun c hc => hxs c (List.mem_cons_of_mem x hc))
    unfold collapseWS at ih' ⊢
    have hx : reWS x = false := hxs x (List.mem_cons_self x xs')
    calc collapseAux false ((x :: xs') ++ run ++ ys)
        = collapseAux false (x :: (xs' ++ run ++ ys)) := by simp
      _ = x :: collapseAux false (xs' ++ run ++ ys) := by simp [collapseAux, hx]
      _ = x :: (xs' ++ collapseAux false ys) := by rw [ih']
      _ = (x :: xs') ++ collapseAux false ys := by simp

/-- A single whitespace character between non-whitespace characters is kept
unchanged. -/
theorem collapse_single (xs : List Char) (c : Char) (ys : List Char)
    (hxs : ∀ a ∈ xs, reWS a = false)
    (hc : reWS c = true)
    (hys : ∀ a, ys.head? = some a → reWS a = false)
    (hne : ys ≠ []) :
    collapseWS (xs ++ c :: ys) = xs ++ c :: collapseWS ys := by
  induction xs with
  | nil =>
    obtain ⟨d, ys', rfl⟩ : ∃ d ys', ys = d :: ys' := by
      cases ys with
      | nil => exact absurd rfl hne
      | cons a b => exact ⟨a, b, rfl⟩
    have hd : reWS d = false := hys d rfl
    unfold collapseWS
    calc collapseAux false (([] : List Char) ++ c :: d :: ys')
        = collapseAux false (c :: d :: ys') := by simp
      _ = c :: collapseAux false (d :: ys') := by simp [collapseAux, hc, hd]
      _ = [] ++ c :: collapseAux false (d :: ys') := by simp
  | cons x xs' ih =>
    have ih' := ih (fun a ha => hxs a (List.mem_cons_of_mem x ha))
    unfold collapseWS at ih' ⊢
    have hx : reWS x = false := hxs x (List.mem_cons_self x xs')
    calc collapseAux false ((x :: xs') ++ c :: ys)
        = collapseAux false (x :: (xs' ++ c :: ys)) := by simp
      _ = x :: collapseAux false (xs' ++ c :: ys) := by simp [collapseAux, hx]
      _ = x :: (xs' ++ c :: collapseAux false ys) := by rw [ih']
      _ = (x :: xs') ++ c :: collapseAux false ys := by simp

/-- The head of `dropWhile p` does not satisfy `p`. -/
theorem head_dropWhile (p : Char → Bool) (l : List Char) (c : Char)
    (h : (l.dropWhile p).head? = some c) : p c = false := by
  induction l with
  | nil => simp [List.dropWhile] at h
  | cons x xs ih =>
    by_cases hx : p x = true
    · have : (x :: xs).dropWhile p = xs.dropWhile p := by simp [List.dropWhile, hx]
      rw [this] at h; exact ih h
    · have : (x :: xs).dropWhile p = x :: xs := by simp [List.dropWhile, hx]
      rw [this] at h
      have hxc : x = c := Option.some.inj h
      rw [← hxc, Bool.eq_false_iff]
      exact hx

/-- `dropWhile` removes an initial segment. -/
theorem dropWhile_decomp (p : Char → Bool) (l : List Char) :
    ∃ t, l = t ++ l.dropWhile p := by
  induction l with
  | nil => exact ⟨[], rfl⟩
  | cons x xs ih =>
    by_cases hx : p x = true
    · obtain ⟨t, ht⟩ := ih
      refine ⟨x :: t, ?_⟩
      have : (x :: xs).dropWhile p = xs.dropWhile p := by simp [List.dropWhile, hx]
      rw [this, List.cons_append, ← ht]
    · refine ⟨[], ?_⟩
      have : (x :: xs).dropWhile p = x :: xs := by simp [List.dropWhile, hx]
      rw [this]; rfl

/-- When non-empty, `dropWhile` keeps the last element. -/
theorem getLast_dropWhile (p : Char → Bool) (l : List Char)
    (h : l.dropWhile p ≠ []) : (l.dropWhile p).getLast? = l.getLast? := by
  obtain ⟨t, ht⟩ := dropWhile_decomp p l
  conv_rhs => rw [ht]
  rw [List.getLast?_append_of_ne_nil t h]

/-- The first character of a trimmed list is not whitespace. -/
theorem goTrimSpace_head (l : List Char) (c : Char)
    (h : (goTrimSpace l).head? = some c) : goIsSpace c = false := by
  unfold goTrimSpace at h
  rw [List.head?_reverse] at h
  have hne : ((l.dropWhile goIsSpace).reverse.dropWhile goIsSpace) ≠ [] := by
    intro h0; rw [h0] at h; simp at h
  rw [getLast_dropWhile _ _ hne, List.getLast?_reverse] at h
  exact head_dropWhile _ _ _ h

/-- The last character of a trimmed list is not whitespace. -/
theorem goTrimSpace_last (l : List Char) (c : Char)
    (h : (goTrimSpace l).getLast? = some c) : goIsSpace c = false := by
  unfold goTrimSpace at h
  rw [List.getLast?_reverse] at h
  exact head_dropWhile _ _ _ h

/-- C9: `TrimAndSanitize` first applies the markup-stripping sanitizer, then
trims leading and trailing whitespace (the trimmed text neither starts nor
ends with a whitespace character), then deletes every maximal run of two or
more whitespace characters — replacing it with the empty string, not a
single space — while a single interior whitespace character is left
unchanged. -/
theorem trim_and_sanitize_spec (sz : String → String) (s : String) :
    TrimAndSanitize sz s = ⟨collapseWS (goTrimSpace (sz s).data)⟩ ∧
    (∀ c, (goTrimSpace (sz s).data).head? = some c → goIsSpace c = false) ∧
    (∀ c, (goTrimSpace (sz s).data).getLast? = some c → goIsSpace c = false) ∧
    (∀ xs run ys, (∀ c ∈ xs, reWS c = false) → (∀ c ∈ run, reWS c = true) →
      2 ≤ run.length → (∀ c, ys.head? = some c → reWS c = false) →
      collapseWS (xs ++ run ++ ys) = xs ++ collapseWS ys) ∧
    (∀ xs c ys, (∀ a ∈ xs, reWS a = false) → reWS c = true →
      (∀ a, ys.head? = some a → reWS a = false) → ys ≠ [] →
      collapseWS (xs ++ c :: ys) = xs ++ c :: collapseWS ys) ∧
    TrimAndSanitize id " a  b c " = "ab c" := by
  exact ⟨rfl, fun c h => goTrimSpace_head _ c h, fun c h => goTrimSpace_last _ c h,
    fun xs run ys h1 h2 h3 h4 => collapse_run_ge2 xs run ys h1 h2 h3 h4,
    fun xs c ys h1 h2 h3 h4 => collapse_single xs c ys h1 h2 h3 h4, by decide⟩

/-- C9 witness: a concrete double-space run is deleted while the concrete
single space survives. -/
theorem trim_and_sanitize_spec_witness :
    collapseWS (['a'] ++ [' ', ' '] ++ ['b']) = ['a'] ++ collapseWS ['b'] ∧
    collapseWS (['a'] ++ ' ' :: ['b']) = ['a'] ++ ' ' :: collapseWS ['b'] :=
  ⟨(trim_and_sanitize_spec id "").2.2.2.1 ['a'] [' ', ' '] ['b']
      (by decide) (by decide) (by decide) (by decide),
   (trim_and_sanitize_spec id "").2.2.2.2.1 ['a'] ' ' ['b']
      (by decide) (by decide) (by decide) (by decide)⟩

/-- Appending character lists is `String` appending on the data. -/
theorem data_append (a b : String) : (a ++ b).data = a.data ++ b.data := by
  cases a; cases b; rfl

/-- A list is a run-prefix of itself followed by anything. -/
theorem preOf_append (p rest : List Char) : preOf p (p ++ rest) = true := by
  induction p with
  | nil => rfl
  | cons a as ih => simp [preOf, ih]

/-- A string starts with any of its explicit prefixes. -/
theorem strStarts_append (pre tail : String) : strStarts (pre ++ tail) pre = true := by
  unfold strStarts
  rw [data_append]
  exact preOf_append pre.data tail.data

/-- `parseRest` stamps the scheme it is given on every successful result. -/
theorem parseRest_scheme (vr : Bool) (scheme rest rawQuery : String) (r : GoURL)
    (h : parseRest vr scheme rest rawQuery = .ok r) : r.Scheme = scheme := by
  unfold parseRest at h
  split at h
  · injection h with h2; rw [← h2]
  · split at h
    · simp at h
    · split at h
      · simp at h
      · split at h
        · split at h
          · injection h with h2; rw [← h2]
          · injection h with h2; rw [← h2]
        · injection h with h2; rw [← h2]

/-- `getScheme` of a string beginning with a slash finds no scheme. -/
theorem getScheme_slash (l : List Char) :
    getScheme ⟨'/' :: l⟩ = .ok ("", ⟨'/' :: l⟩) := by
  unfold getScheme getSchemeAux
  rw [if_neg (by decide), if_neg (by decide), if_neg (by decide)]

/-- `parse` of a slash-initial URL yields an empty scheme. -/
theorem parseGo_slash_scheme (vr : Bool) (l : List Char) (r : GoURL)
    (h : parseGo vr ⟨'/' :: l⟩ = .ok r) : r.Scheme = "" := by
  have hne : ¬((⟨'/' :: l⟩ : String) = "" ∧ vr = true) := by
    rintro ⟨hc, -⟩
    exact List.noConfusion (congrArg String.data hc)
  have hstar : ¬((⟨'/' :: l⟩ : String) = "*") := by
    intro hc
    have hd : '/' :: l = ['*'] := congrArg String.data hc
    obtain ⟨h1, -⟩ := List.cons.inj hd
    exact absurd h1 (by decide)
  unfold parseGo at h
  rw [if_neg hne, if_neg hstar, getScheme_slash l] at h
  have := parseRest_scheme vr (goToLower "")
    ((cutChar (⟨'/' :: l⟩ : String) '?').1)
    ((cutChar (⟨'/' :: l⟩ : String) '?').2.getD "") r h
  exact this.trans rfl

/-- A string that starts with two slashes has the explicit data shape. -/
theorem strStarts_two_slash (href : String) (h : strStarts href "//" = true) :
    ∃ t, href.data = '/' :: '/' :: t := by
  unfold strStarts at h
  rw [show ("//" : String).data = ['/', '/'] from rfl] at h
  cases hd : href.data with
  | nil => rw [hd] at h; simp [preOf] at h
  | cons a as =>
    rw [hd] at h
    cases as with
    | nil => simp [preOf] at h
    | cons b bs =>
      simp [preOf] at h
      obtain ⟨ha, hb⟩ := h
      exact ⟨bs, by rw [← ha, ← hb]⟩

/-- Cutting the fragment off a double-slash string keeps the double slash. -/
theorem cutList_slash2 (t : List Char) :
    cutList '#' ('/' :: '/' :: t) =
      ('/' :: '/' :: (cutList '#' t).1, (cutList '#' t).2) := by
  rw [cutList, if_neg (by decide), cutList, if_neg (by decide)]

/-- The parse of a protocol-relative reference has an empty scheme. -/
theorem urlParse_protRel (href : String) (r : GoURL)
    (hpre : strStarts href "//" = true) (h : urlParse href = .ok r) : r.Scheme = "" := by
  obtain ⟨t, ht⟩ := strStarts_two_slash href hpre
  have hcut : (cutChar href '#').1 = ⟨'/' :: '/' :: (cutList '#' t).1⟩ := by
    unfold cutChar
    rw [ht, cutList_slash2]
  unfold urlParse at h
  rw [hcut] at h
  rcases hp : parseGo false ⟨'/' :: '/' :: (cutList '#' t).1⟩ with e | u0
  · rw [hp] at h; simp at h
  · rw [hp] at h
    have hsch : u0.Scheme = "" := parseGo_slash_scheme false _ u0 hp
    rcases hf : (cutChar href '#').2 with _ | f
    · rw [hf] at h
      injection h with h2
      rw [← h2]; exact hsch
    · rw [hf] at h
      injection h with h2
      rw [← h2]; exact hsch

/-- The scheme of a resolved reference: inherited from the base exactly when
the reference has none. -/
theorem resolveReference_scheme (u ref : GoURL) :
    (ResolveReference u ref).Scheme =
      if ref.Scheme = "" then u.Scheme else ref.Scheme := by
  unfold ResolveReference
  split
  · rfl
  · split
    · rfl
    · split
      · rfl
      · rfl

/-- A protocol-relative href resolved against a base inherits the base's
scheme. -/
theorem parseRef_protRel (u : GoURL) (href : String) (r : GoURL)
    (hpre : strStarts href "//" = true) (h : u.ParseRef href = .ok r) :
    r.Scheme = u.Scheme := by
  unfold GoURL.ParseRef at h
  rcases hp : urlParse href with e | refURL
  · rw [hp] at h; simp at h
  · rw [hp] at h
    injection h with h2
    have hsch : refURL.Scheme = "" := urlParse_protRel href refURL hpre hp
    rw [← h2, resolveReference_scheme, if_pos hsch]

/-- The scheme whitelist returns its input and guarantees the scheme. -/
theorem validateScheme_ok (u r : GoURL) (h : validateScheme u = .ok r) :
    r = u ∧ (u.Scheme = "http" ∨ u.Scheme = "https") := by
  unfold validateScheme at h
  by_cases hg : u.Scheme ≠ "http" ∧ u.Scheme ≠ "https"
  · rw [if_pos hg] at h; simp at h
  · rw [if_neg hg] at h
    injection h with h2
    refine ⟨h2.symm, ?_⟩
    by_contra hcon
    push_neg at hcon
    exact hg ⟨hcon.1, hcon.2⟩

/-- The successful resolver output: scheme validated to http/https, fragment
stripped, and the base's scheme inherited for a protocol-relative href. -/
theorem absoluteURLrec_ok (base href : String) (u : GoURL)
    (h : AbsoluteURLrec base href = .ok u) :
    (u.Scheme = "http" ∨ u.Scheme = "https") ∧ u.Fragment = "" ∧
    (∀ bu, ParseRequestURI base = .ok bu → strStarts href "//" = true →
      u.Scheme = bu.Scheme) := by
  unfold AbsoluteURLrec at h
  by_cases h0 : strStarts href "#" = true
  · rw [if_pos h0] at h; simp at h
  · rw [if_neg h0] at h
    rcases hb : ParseRequestURI base with e | baseURL
    · rw [hb] at h; simp at h
    · rw [hb] at h
      replace h : resolveStage baseURL href = Except.ok u := h
      unfold resolveStage at h
      rcases hr : baseURL.ParseRef href with e | absURL0
      · rw [hr] at h; simp at h
      · rw [hr] at h
        obtain ⟨hu, hsch⟩ := validateScheme_ok _ u h
        refine ⟨by rw [hu]; exact hsch, ?_, ?_⟩
        · rw [hu]
          unfold patchScheme
          split
          · rfl
          · rfl
        · intro bu hbu hpp
          have hbb : baseURL = bu := by injection hbu
          have hsr : absURL0.Scheme = baseURL.Scheme :=
            parseRef_protRel baseURL href absURL0 hpp hr
          rw [hu]
          unfold patchScheme
          by_cases hv : ({ absURL0 with Fragment := "" } : GoURL).Scheme = "//"
          · rw [if_pos hv]
            show baseURL.Scheme = bu.Scheme
            rw [hbb]
          · rw [if_neg hv]
            show absURL0.Scheme = bu.Scheme
            rw [hsr, hbb]

/-- A successful `AbsoluteURL` is the rendering of a successful
`AbsoluteURLrec`. -/
theorem absoluteURL_ok_rec (base href out : String)
    (h : AbsoluteURL base href = .ok out) :
    ∃ u, AbsoluteURLrec base href = .ok u ∧ out = GoURL.render u := by
  unfold AbsoluteURL at h
  rcases hr : AbsoluteURLrec base href with e | u
  · rw [hr] at h; simp [Except.map] at h
  · rw [hr] at h
    refine ⟨u, rfl, ?_⟩
    simpa [Except.map] using h.symm

/-- A successful resolution implies the href did not start with a hash. -/
theorem absoluteURL_ok_hash (base href out : String)
    (h : AbsoluteURL base href = .ok out) : strStarts href "#" = false := by
  by_cases h0 : strStarts href "#" = true
  · exfalso
    unfold AbsoluteURL AbsoluteURLrec at h
    rw [if_pos h0] at h
    simp [Except.map] at h
  · rw [Bool.not_eq_true] at h0; exact h0

/-- Rendering a validated URL yields a string carrying its scheme prefix. -/
theorem render_starts (u : GoURL) (hs : u.Scheme = "http" ∨ u.Scheme = "https") :
    strStarts (GoURL.render u) "http:" = true ∨
    strStarts (GoURL.render u) "https:" = true := by
  rcases hs with h | h
  · left
    unfold GoURL.render
    rw [h, if_pos (by decide : ¬("http" : String) = "")]
    rw [show ("http" : String) ++ ":" = "http:" from by decide]
    exact strStarts_append _ _
  · right
    unfold GoURL.render
    rw [h, if_pos (by decide : ¬("https" : String) = "")]
    rw [show ("https" : String) ++ ":" = "https:" from by decide]
    exact strStarts_append _ _

/-- C3: on every successful resolution the output is the rendering of a URL
value whose scheme passed the http/https whitelist and whose fragment was
stripped (so the output string is absolute — it starts with `http:` or
`https:` — and fragment-free), a protocol-relative href inherits the base's
scheme, an href starting with a hash is always rejected; and concretely:
`../z` against `https://a.com/x/y` gives `https://a.com/z`, `#frag` errors,
`//b.com/p` against `https://a.com` gives `https://b.com/p`, and
`ftp://c.com` errors with an unknown scheme. -/
theorem absoluteURL_resolver_spec (base href out : String) (bu : GoURL)
    (hok : AbsoluteURL base href = Except.ok out)
    (hbase : ParseRequestURI base = Except.ok bu) :
    (∃ u, AbsoluteURLrec base href = Except.ok u ∧ out = GoURL.render u ∧
      (u.Scheme = "http" ∨ u.Scheme = "https") ∧ u.Fragment = "" ∧
      (strStarts href "//" = true → u.Scheme = bu.Scheme)) ∧
    strStarts href "#" = false ∧
    (strStarts out "http:" = true ∨ strStarts out "https:" = true) ∧
    AbsoluteURL "https://a.com/x/y" "../z" = Except.ok "https://a.com/z" ∧
    AbsoluteURL "https://a.com" "#frag" = Except.error "url has #" ∧
    AbsoluteURL "https://a.com" "//b.com/p" = Except.ok "https://b.com/p" ∧
    AbsoluteURL "https://a.com" "ftp://c.com" = Except.error "unknown scheme" := by
  obtain ⟨u, hrec, hout⟩ := absoluteURL_ok_rec base href out hok
  obtain ⟨hsch, hfrag, hinherit⟩ := absoluteURLrec_ok base href u hrec
  refine ⟨⟨u, hrec, hout, hsch, hfrag, fun hp => hinherit bu hbase hp⟩,
    absoluteURL_ok_hash base href out hok, ?_, by decide, by decide, by decide, by decide⟩
  rw [hout]
  exact render_starts u hsch

/-- C3 witness: the dot-segment example instantiates the universal part. -/
theorem absoluteURL_resolver_spec_witness :
    strStarts "../z" "#" = false ∧
    (strStarts "https://a.com/z" "http:" = true ∨
      strStarts "https://a.com/z" "https:" = true) :=
  ⟨(absoluteURL_resolver_spec "https://a.com/x/y" "../z" "https://a.com/z"
      { Scheme := "https", Host := "a.com", Path := "/x/y" } (by decide) (by decide)).2.1,
   (absoluteURL_resolver_spec "https://a.com/x/y" "../z" "https://a.com/z"
      { Scheme := "https", Host := "a.com", Path := "/x/y" } (by decide) (by decide)).2.2.1⟩

end Crawler
